import Mathlib

/-
Verification of the history-sync scripts (discover.py, consolidate.py,
pull_remote.py) against their natural-language specification.

The filesystem under a home directory is modelled as a finite tree of
named entries.  Files carry a readability flag (an unreadable file makes
a Python open() raise) and a line count (what iterating over the open
file would yield).  Paths are lists of name components relative to home.
Python exceptions are modelled with Except: any OS error raised by the
scripts (open() on an unreadable file or a directory, iterating a
regular file as a directory) surfaces as Except.error.
-/

inductive FSNode where
  | file (readable : Bool) (lines : Nat)
  | dir (children : List (String × FSNode))

/-- Child entry of a node by name; none for files and missing names,
mirroring the fact that path/"x" never exists below a regular file. -/
def FSNode.child : FSNode → String → Option FSNode
  | .file _ _, _ => none
  | .dir cs, name => (cs.find? (fun c => c.1 == name)).map (·.2)

/-- Resolve a relative path (list of components) below a node. -/
def FSNode.lookup : FSNode → List String → Option FSNode
  | n, [] => some n
  | n, p :: ps =>
    match n.child p with
    | some c => FSNode.lookup c ps
    | none => none

def FSNode.isDir : FSNode → Bool
  | .dir _ => true
  | .file _ _ => false

/-- Model of `sum(1 for _ in open(f))`: succeeds with the line count on a
readable file; raises (error) on an unreadable file or on a directory. -/
def readLines : FSNode → Except Unit Nat
  | .file true k => .ok k
  | .file false _ => .error ()
  | .dir _ => .error ()

/-- Python endswith on names, as a suffix check over the character list. -/
def nameEndsWith (s suffix : String) : Bool :=
  suffix.data.isSuffixOf s.data

/-- Model of `list(project_dir.glob("*.jsonl"))` length: pathlib glob with
pattern *.jsonl matches exactly the children whose name ends in ".jsonl"
(non-recursive). -/
def jsonlCount : FSNode → Nat
  | .file _ _ => 0
  | .dir cs => (cs.filter (fun c => nameEndsWith c.1 ".jsonl")).length

/-- project_name = project_dir.name.replace('-', '/') with one leading
'/' stripped, from discover.py.  The single-character replace is the map
that swaps every encoding character; startswith('/') plus [1:] drops one
leading separator. -/
def decodeProjectName (s : String) : String :=
  let t : List Char := s.data.map (fun ch => if ch == '-' then '/' else ch)
  match t with
  | '/' :: rest => ⟨rest⟩
  | _ => ⟨t⟩

/-- Python name.startswith('.') on a directory name: first character test. -/
def nameIsHidden (s : String) : Bool :=
  match s.data with
  | [] => false
  | a :: _ => a == '.'

/-- Python name[:12]: the first twelve characters. -/
def nameTake12 (s : String) : String :=
  ⟨s.data.take 12⟩

structure HistoryLocation where
  tool : String
  path : List String
  project_name : Option String
  session_count : Nat
  is_remote : Bool
  host : Option String
deriving DecidableEq

structure DiscoveryResult where
  hostname : String
  claude_code_base : Option (List String)
  cursor_base : Option (List String)
  locations : List HistoryLocation
deriving DecidableEq

/-- The `history.jsonl` index scan of discover_claude_code. -/
def indexLocs (home : FSNode) : Except Unit (List HistoryLocation) :=
  match home.lookup [".claude", "history.jsonl"] with
  | none => .ok []
  | some n =>
    match readLines n with
    | .error e => .error e
    | .ok c => .ok [⟨"claude-code", [".claude", "history.jsonl"], some "_index", c, false, none⟩]

/-- Per-child emission rule of the projects loop in discover_claude_code:
non-hidden directories holding at least one *.jsonl entry produce one
location. -/
def projEmit (c : String × FSNode) : Option HistoryLocation :=
  if c.2.isDir && !(nameIsHidden c.1) then
    if 0 < jsonlCount c.2 then
      some ⟨"claude-code", [".claude", "projects", c.1], some (decodeProjectName c.1),
            jsonlCount c.2, false, none⟩
    else none
  else none

/-- The `.claude/projects` scan of discover_claude_code; iterating a
regular file named projects raises. -/
def projectLocs (home : FSNode) : Except Unit (List HistoryLocation) :=
  match home.lookup [".claude", "projects"] with
  | none => .ok []
  | some (.file _ _) => .error ()
  | some (.dir cs) => .ok (cs.filterMap projEmit)

/-- discover_claude_code from discover.py. -/
def discover_claude_code (home : FSNode) : Except Unit (List HistoryLocation) :=
  match home.lookup [".claude"] with
  | none => .ok []
  | some _ =>
    match indexLocs home with
    | .error e => .error e
    | .ok idx =>
      match projectLocs home with
      | .error e => .error e
      | .ok pls => .ok (idx ++ pls)

def cursorWsPath1 : List String := [".config", "Cursor", "User", "workspaceStorage"]
def cursorWsPath2 : List String := [".cursor-server", "data", "User", "workspaceStorage"]
def cursorWsPath3 : List String := ["Library", "Application Support", "Cursor", "User", "workspaceStorage"]
def cursorHistPath1 : List String := [".cursor-server", "data", "User", "History"]
def cursorHistPath2 : List String := [".config", "Cursor", "User", "History"]

/-- Per-workspace emission rule of discover_cursor: every subdirectory of
an existing workspaceStorage yields one location, session_count 1 when a
state.vscdb entry exists inside and 0 otherwise. -/
def wsEmit (p : List String) (c : String × FSNode) : Option HistoryLocation :=
  if c.2.isDir then
    some ⟨"cursor", p ++ [c.1], some (nameTake12 c.1 ++ "..."),
          if (c.2.child "state.vscdb").isSome then 1 else 0, false, none⟩
  else none

/-- Scan one workspaceStorage candidate path; iterating a regular file at
that path raises. -/
def scanWs (home : FSNode) (p : List String) : Except Unit (List HistoryLocation) :=
  match home.lookup p with
  | none => .ok []
  | some (.file _ _) => .error ()
  | some (.dir cs) => .ok (cs.filterMap (wsEmit p))

/-- Scan one History candidate path: one aggregate _file_history location
when the directory holds at least one subdirectory. -/
def scanHist (home : FSNode) (p : List String) : Except Unit (List HistoryLocation) :=
  match home.lookup p with
  | none => .ok []
  | some (.file _ _) => .error ()
  | some (.dir cs) =>
    if 0 < (cs.filter (fun c => c.2.isDir)).length then
      .ok [⟨"cursor", p, some "_file_history", (cs.filter (fun c => c.2.isDir)).length, false, none⟩]
    else .ok []

/-- discover_cursor from discover.py: the three workspaceStorage candidates
in order, then the two History candidates in order. -/
def discover_cursor (home : FSNode) : Except Unit (List HistoryLocation) :=
  match scanWs home cursorWsPath1 with
  | .error e => .error e
  | .ok a =>
    match scanWs home cursorWsPath2 with
    | .error e => .error e
    | .ok b =>
      match scanWs home cursorWsPath3 with
      | .error e => .error e
      | .ok c =>
        match scanHist home cursorHistPath1 with
        | .error e => .error e
        | .ok d =>
          match scanHist home cursorHistPath2 with
          | .error e => .error e
          | .ok e2 => .ok (a ++ b ++ c ++ d ++ e2)

/-- Occurrence of pat as a contiguous sublist, scanning left to right. -/
def subOccurs (pat : List Char) : List Char → Bool
  | [] => pat.isPrefixOf []
  | a :: rest => pat.isPrefixOf (a :: rest) || subOccurs pat rest

/-- Python substring membership `pat in s`. -/
def strContains (s pat : String) : Bool :=
  subOccurs pat.data s.data

/-- str(loc.path) with the home directory string prefixed, as produced by
pathlib joining. -/
def pathToString (hs : String) (p : List String) : String :=
  hs ++ String.join (p.map (fun c => "/" ++ c))

/-- The cursor-base resolution loop of discover_all: walk the cursor
locations, and at the first one whose path exists decide the base from two
substring checks, then stop (break) whether or not either matched. -/
def cursorBaseLoop (home : FSNode) (hs : String) : List HistoryLocation → Option (List String)
  | [] => none
  | loc :: rest =>
    if (home.lookup loc.path).isSome then
      if strContains (pathToString hs loc.path) ".cursor-server" then some [".cursor-server"]
      else if strContains (pathToString hs loc.path) ".config/Cursor" then some [".config", "Cursor"]
      else none
    else cursorBaseLoop home hs rest

/-- discover_all from discover.py. -/
def discover_all (home : FSNode) (hs hn : String) : Except Unit DiscoveryResult :=
  match discover_claude_code home with
  | .error e => .error e
  | .ok cl =>
    match discover_cursor home with
    | .error e => .error e
    | .ok cu =>
      .ok { hostname := hn
          , claude_code_base :=
              if (home.lookup [".claude"]).isSome then some [".claude"] else none
          , cursor_base := cursorBaseLoop home hs cu
          , locations := cl ++ cu }

/-
pull_remote.py.  The remote filesystem is an existence oracle over the
fixed candidate path strings probed via `test -d`; the mirror primitive
is an oracle giving the exit status of each rsync invocation, keyed by
the remote source argument (the found path with "/" appended) and the
dry-run flag.  The only local filesystem effects of pull_from_remote are
directory creations: host_dir.mkdir in pull_from_remote itself and
local_path.mkdir at the top of rsync_remote_dir (which runs before the
dry-run flag is consulted).
-/

structure PullState where
  hostDirExists : Bool
  claudeDirExists : Bool
  cursorDirExists : Bool
deriving DecidableEq

def claude_paths : List String := ["~/.claude"]

def cursor_paths : List String := ["~/.cursor-server", "~/.config/Cursor", "~/.cursor"]

/-- discover_remote_histories from pull_remote.py: first existing candidate
per tool, none when no candidate exists. -/
def discover_remote_histories (re : String → Bool) : Option String × Option String :=
  (claude_paths.find? re, cursor_paths.find? re)

/-- pull_from_remote from pull_remote.py.  Returns the local directory
state after the call together with the success flag. -/
def pull_from_remote (re : String → Bool) (rsyncOk : String → Bool → Bool)
    (claude_code cursor dry_run : Bool) (st : PullState) : PullState × Bool :=
  let ds := discover_remote_histories re
  if ds.1.isNone && ds.2.isNone then (st, false)
  else
    let st1 : PullState := { st with hostDirExists := true }
    let step1 : PullState × Bool :=
      match ds.1, claude_code with
      | some p, true =>
        ({ st1 with claudeDirExists := true }, rsyncOk (p ++ "/") dry_run)
      | _, _ => (st1, true)
    match ds.2, cursor with
    | some p, true =>
      ({ step1.1 with cursorDirExists := true },
        step1.2 && rsyncOk (p ++ "/") dry_run)
    | _, _ => step1

/-
consolidate.py, consolidate_local.  The state is the per-host subtree of
the consolidation root: whether root/hostname exists and what occupies
each of the two tool entries.  The ambient filesystem is an existence
oracle used to resolve Path.exists through a symlink (a dangling symlink
has exists() false but is_symlink() true).  unlink() removes symlinks and
regular files and raises IsADirectoryError on a real directory; a raise
is modelled as a none report with the state at the time of the raise.
-/

inductive SlotEntry where
  | absent
  | symlinkTo (target : List String)
  | realFile
  | realDir
deriving DecidableEq

def entryExists (fs : List String → Bool) : SlotEntry → Bool
  | .absent => false
  | .symlinkTo t => fs t
  | .realFile => true
  | .realDir => true

def entryIsSymlink : SlotEntry → Bool
  | .symlinkTo _ => true
  | _ => false

structure ToolReport where
  skipped : Bool
  created : Bool
deriving DecidableEq

structure ConsReport where
  claude : ToolReport
  cursor : ToolReport
deriving DecidableEq

structure ConsState where
  hostDirExists : Bool
  claudeSlot : SlotEntry
  cursorSlot : SlotEntry
deriving DecidableEq

/-- One tool entry of consolidate_local: the exists-or-symlink guard, the
force unlink (raising on a real directory), the skip report, and the
re-checked symlink creation. -/
def consolidateTool (fs : List String → Bool) (force : Bool)
    (base : Option (List String)) (slot : SlotEntry) : SlotEntry × Option ToolReport :=
  match base with
  | none => (slot, some ⟨false, false⟩)
  | some b =>
    if entryExists fs slot || entryIsSymlink slot then
      if force then
        match slot with
        | .realDir => (slot, none)
        | _ => (.symlinkTo b, some ⟨false, true⟩)
      else (slot, some ⟨true, false⟩)
    else (.symlinkTo b, some ⟨false, true⟩)

/-- consolidate_local from consolidate.py: ensure root/hostname, then the
claude-code entry, then the cursor entry.  A raise in either tool step
aborts the call (none report) with the state reached so far. -/
def consolidate_local (fs : List String → Bool) (force : Bool)
    (claude_code_base cursor_base : Option (List String))
    (st : ConsState) : ConsState × Option ConsReport :=
  let st1 : ConsState := { st with hostDirExists := true }
  match consolidateTool fs force claude_code_base st1.claudeSlot with
  | (s, none) => ({ st1 with claudeSlot := s }, none)
  | (s, some rc) =>
    match consolidateTool fs force cursor_base st1.cursorSlot with
    | (s2, none) => ({ st1 with claudeSlot := s, cursorSlot := s2 }, none)
    | (s2, some ru) => ({ st1 with claudeSlot := s, cursorSlot := s2 }, some ⟨rc, ru⟩)

def home9 : FSNode :=
  .dir [(".claude", .dir [("history.jsonl", .file true 2)]),
        (".config", .dir [("Cursor", .dir [("User", .dir [("workspaceStorage",
           .dir [("wsabc", .dir [])])])])])]

/-- C8 counterexample: a home without a .claude base on which discover_all
nevertheless raises, because a regular file sits at the first
workspaceStorage candidate and iterating it as a directory raises. -/
def home8 : FSNode :=
  .dir [(".config", .dir [("Cursor", .dir [("User", .dir [("workspaceStorage", .file true 0)])])])]

def home8w : FSNode :=
  .dir [(".cursor-server", .dir [("data", .dir [("User", .dir [("workspaceStorage",
    .dir [("w1", .dir [("state.vscdb", .file true 0)])])])])])]

/-- C3 counterexample: a home whose only editor-assistant locations live
under the macOS application-support base.  The claim says cursor_base is
then set to that base; the code leaves it unset, because the resolution
loop breaks at the first existing location after checking only the
.cursor-server and .config/Cursor fragments. -/
def home3 : FSNode :=
  .dir [("Library", .dir [("Application Support", .dir [("Cursor", .dir [("User", .dir
    [("workspaceStorage", .dir [("abc", .dir [])])])])])])]

def home3w : FSNode :=
  .dir [("Library", .dir [("Application Support", .dir [("Cursor", .dir [("User", .dir
    [("workspaceStorage", .dir [("wxyz", .dir [])])])])])])]

/-- C5 counterexample: the index file is unreadable while a project
directory with one session file exists; the scan raises and returns no
locations, instead of degrading only the index entry. -/
def home5 : FSNode :=
  .dir [(".claude", .dir [("history.jsonl", .file false 0),
    ("projects", .dir [("p1", .dir [("a.jsonl", .file true 0)])])])]

def home5w : FSNode :=
  .dir [(".claude", .dir [("history.jsonl", .file false 7)])]

def home6 : FSNode :=
  .dir [(".claude", .dir [("projects", .dir
    [("-root-proj", .dir [("a.jsonl", .file true 0), ("b.jsonl", .file true 0),
                          ("c.jsonl", .file true 0)])])])]

/-- Mirror outcome of the rsync call for a found tool: vacuously true for
a tool that was not found. -/
def mirrorOkFlag (rsyncOk : String → Bool → Bool) (dry_run : Bool) : Option String → Bool
  | none => true
  | some p => rsyncOk (p ++ "/") dry_run

example : discover_claude_code (.dir []) = .ok [] := rfl

example :
    pull_from_remote (fun _ => false) (fun _ _ => true) true true false ⟨false, false, false⟩
      = (⟨false, false, false⟩, false) := rfl

example :
    pull_from_remote (fun s => s == "~/.cursor-server") (fun _ _ => true) true true false
      ⟨false, false, false⟩ = (⟨true, false, true⟩, true) := rfl

example :
    consolidate_local (fun _ => false) false (some [".claude"]) none ⟨false, .absent, .absent⟩
      = (⟨true, .symlinkTo [".claude"], .absent⟩, some ⟨⟨false, true⟩, ⟨false, false⟩⟩) := rfl

example :
    consolidate_local (fun _ => false) true (some [".claude"]) none ⟨false, .realDir, .absent⟩
      = (⟨true, .realDir, .absent⟩, none) := rfl

example :
    discover_claude_code
      (.dir [(".claude", .dir [("projects", .dir
        [("p1", .dir [("a.jsonl", .file true 0), ("b.jsonl", .file true 0),
                      ("c.jsonl", .file true 0)])])])])
      = .ok [⟨"claude-code", [".claude", "projects", "p1"], some "p1", 3, false, none⟩] := rfl

/-- Looking up a concatenated path resolves the front first. -/
theorem FSNode.lookup_append (n : FSNode) (ps qs : List String) :
    n.lookup (ps ++ qs) = (n.lookup ps).bind (fun m => m.lookup qs) := by
  induction ps generalizing n with
  | nil => simp [FSNode.lookup]
  | cons p ps ih =>
    simp only [List.cons_append, FSNode.lookup]
    cases n.child p with
    | none => simp
    | some c => simpa using ih c

/-- A listed child of a directory node resolves. -/
theorem childDir_isSome (cs : List (String × FSNode)) (name : String) (node : FSNode)
    (h : (name, node) ∈ cs) : (FSNode.child (.dir cs) name).isSome = true := by
  have h2 : (cs.find? (fun c => c.1 == name)).isSome := by
    rw [List.find?_isSome]
    exact ⟨(name, node), h, by simp⟩
  obtain ⟨c, hc⟩ := Option.isSome_iff_exists.mp h2
  simp [FSNode.child, hc]

/-- A path extended by a listed child of its directory still resolves. -/
theorem lookup_snoc_isSome (home : FSNode) (p : List String) (cs : List (String × FSNode))
    (name : String) (node : FSNode)
    (hp : home.lookup p = some (.dir cs)) (h : (name, node) ∈ cs) :
    (home.lookup (p ++ [name])).isSome = true := by
  rw [FSNode.lookup_append, hp]
  obtain ⟨c, hc⟩ := Option.isSome_iff_exists.mp (childDir_isSome cs name node h)
  simp [FSNode.lookup, hc]

/-- Every location a workspaceStorage scan emits carries tool cursor and an
existing path. -/
theorem scanWs_mem (home : FSNode) (p : List String) (locs : List HistoryLocation)
    (hok : scanWs home p = .ok locs) :
    ∀ l ∈ locs, l.tool = "cursor" ∧ (home.lookup l.path).isSome = true := by
  intro l hl
  unfold scanWs at hok
  cases hp : home.lookup p with
  | none =>
    rw [hp] at hok
    injection hok with h
    subst h
    cases hl
  | some n =>
    cases n with
    | file r k => rw [hp] at hok; cases hok
    | dir cs =>
      rw [hp] at hok
      injection hok with h
      subst h
      obtain ⟨c, hc, he⟩ := List.mem_filterMap.mp hl
      unfold wsEmit at he
      by_cases hd : c.2.isDir = true
      · rw [if_pos hd] at he
        injection he with he
        subst he
        refine ⟨rfl, ?_⟩
        exact lookup_snoc_isSome home p cs c.1 c.2 hp (by simpa using hc)
      · rw [if_neg hd] at he
        cases he

/-- Every location a History scan emits carries tool cursor and an existing
path. -/
theorem scanHist_mem (home : FSNode) (p : List String) (locs : List HistoryLocation)
    (hok : scanHist home p = .ok locs) :
    ∀ l ∈ locs, l.tool = "cursor" ∧ (home.lookup l.path).isSome = true := by
  intro l hl
  unfold scanHist at hok
  split at hok
  · injection hok with h
    subst h
    cases hl
  · cases hok
  · rename_i cs heq
    split at hok
    · injection hok with h
      subst h
      simp only [List.mem_singleton] at hl
      subst hl
      exact ⟨rfl, by simp [heq]⟩
    · injection hok with h
      subst h
      cases hl

/-- Every location discover_cursor returns carries tool cursor and an
existing path. -/
theorem discover_cursor_mem (home : FSNode) (locs : List HistoryLocation)
    (hok : discover_cursor home = .ok locs) :
    ∀ l ∈ locs, l.tool = "cursor" ∧ (home.lookup l.path).isSome = true := by
  unfold discover_cursor at hok
  cases h1 : scanWs home cursorWsPath1 with
  | error e => rw [h1] at hok; cases hok
  | ok a =>
  rw [h1] at hok
  cases h2 : scanWs home cursorWsPath2 with
  | error e => rw [h2] at hok; cases hok
  | ok b =>
  rw [h2] at hok
  cases h3 : scanWs home cursorWsPath3 with
  | error e => rw [h3] at hok; cases hok
  | ok c =>
  rw [h3] at hok
  cases h4 : scanHist home cursorHistPath1 with
  | error e => rw [h4] at hok; cases hok
  | ok d =>
  rw [h4] at hok
  cases h5 : scanHist home cursorHistPath2 with
  | error e => rw [h5] at hok; cases hok
  | ok e2 =>
  rw [h5] at hok
  injection hok with h
  subst h
  intro l hl
  simp only [List.mem_append] at hl
  rcases hl with (((hl | hl) | hl) | hl) | hl
  · exact scanWs_mem home cursorWsPath1 a h1 l hl
  · exact scanWs_mem home cursorWsPath2 b h2 l hl
  · exact scanWs_mem home cursorWsPath3 c h3 l hl
  · exact scanHist_mem home cursorHistPath1 d h4 l hl
  · exact scanHist_mem home cursorHistPath2 e2 h5 l hl

/-- The index location, when emitted, carries tool claude-code and an
existing path. -/
theorem indexLocs_mem (home : FSNode) (locs : List HistoryLocation)
    (hok : indexLocs home = .ok locs) :
    ∀ l ∈ locs, l.tool = "claude-code" ∧ (home.lookup l.path).isSome = true := by
  intro l hl
  unfold indexLocs at hok
  split at hok
  · injection hok with h
    subst h
    cases hl
  · rename_i n heq
    split at hok
    · cases hok
    · injection hok with h
      subst h
      simp only [List.mem_singleton] at hl
      subst hl
      exact ⟨rfl, by simp [heq]⟩

/-- Every project location carries tool claude-code and an existing path. -/
theorem projectLocs_mem (home : FSNode) (locs : List HistoryLocation)
    (hok : projectLocs home = .ok locs) :
    ∀ l ∈ locs, l.tool = "claude-code" ∧ (home.lookup l.path).isSome = true := by
  intro l hl
  unfold projectLocs at hok
  split at hok
  · injection hok with h
    subst h
    cases hl
  · cases hok
  · rename_i cs heq
    injection hok with h
    subst h
    obtain ⟨c, hc, he⟩ := List.mem_filterMap.mp hl
    unfold projEmit at he
    by_cases h1 : (c.2.isDir && !(nameIsHidden c.1)) = true
    · rw [if_pos h1] at he
      by_cases h2 : 0 < jsonlCount c.2
      · rw [if_pos h2] at he
        injection he with he
        subst he
        exact ⟨rfl,
          lookup_snoc_isSome home [".claude", "projects"] cs c.1 c.2 heq (by simpa using hc)⟩
      · rw [if_neg h2] at he
        cases he
    · rw [if_neg h1] at he
      cases he

/-- Every location discover_claude_code returns carries tool claude-code
and an existing path. -/
theorem discover_claude_code_mem (home : FSNode) (locs : List HistoryLocation)
    (hok : discover_claude_code home = .ok locs) :
    ∀ l ∈ locs, l.tool = "claude-code" ∧ (home.lookup l.path).isSome = true := by
  unfold discover_claude_code at hok
  split at hok
  · injection hok with h
    subst h
    intro l hl
    cases hl
  · split at hok
    · cases hok
    · rename_i idx hidx
      split at hok
      · cases hok
      · rename_i pls hpls
        injection hok with h
        subst h
        intro l hl
        rcases List.mem_append.mp hl with h | h
        · exact indexLocs_mem home idx hidx l h
        · exact projectLocs_mem home pls hpls l h

/-- C9: every HistoryLocation returned by the Locator (both the
CLI-assistant rule and the editor-assistant rule) has a path that exists
on the filesystem at the time the entry is constructed: the Locator never
emits an entry for a non-existent path. -/
theorem locator_paths_exist (home : FSNode) (hs hn : String) (r : DiscoveryResult)
    (hok : discover_all home hs hn = .ok r) :
    ∀ l ∈ r.locations, (home.lookup l.path).isSome = true := by
  unfold discover_all at hok
  split at hok
  · cases hok
  · rename_i cl hcl
    split at hok
    · cases hok
    · rename_i cu hcu
      injection hok with h
      subst h
      intro l hl
      rcases List.mem_append.mp hl with h | h
      · exact (discover_claude_code_mem home cl hcl l h).2
      · exact (discover_cursor_mem home cu hcu l h).2

/-- Witness for C9 at a concrete home with one location per tool. -/
theorem locator_paths_exist_witness :
    (home9.lookup [".claude", "history.jsonl"]).isSome = true :=
  locator_paths_exist home9 "/home/u" "h"
    ⟨"h", some [".claude"], some [".config", "Cursor"],
      [⟨"claude-code", [".claude", "history.jsonl"], some "_index", 2, false, none⟩,
       ⟨"cursor", [".config", "Cursor", "User", "workspaceStorage", "wsabc"],
         some "wsabc...", 0, false, none⟩]⟩
    rfl
    ⟨"claude-code", [".claude", "history.jsonl"], some "_index", 2, false, none⟩
    (List.Mem.head _)

/-- C8 as stated is false: home8 lacks .claude, yet discover_all raises. -/
theorem discover_no_claude_can_raise :
    home8.lookup [".claude"] = none ∧ discover_all home8 "/home/u" "h" = .error () :=
  ⟨rfl, rfl⟩

/-- C8 amended: without home/.claude the CLI-assistant scan returns no
locations and never raises, and whenever discover_all returns, its result
has claude_code_base unset and zero CLI-assistant locations; only the
editor-assistant scan can still raise. -/
theorem discover_no_claude_base (home : FSNode) (hs hn : String)
    (h : home.lookup [".claude"] = none) :
    discover_claude_code home = .ok [] ∧
    ∀ r, discover_all home hs hn = .ok r →
      r.claude_code_base = none ∧
      r.locations.filter (fun l => l.tool == "claude-code") = [] := by
  have hcl : discover_claude_code home = .ok [] := by
    unfold discover_claude_code
    rw [h]
  refine ⟨hcl, ?_⟩
  intro r hok
  unfold discover_all at hok
  rw [hcl] at hok
  cases hcu : discover_cursor home with
  | error e =>
    rw [hcu] at hok
    cases hok
  | ok cu =>
    rw [hcu] at hok
    injection hok with h2
    subst h2
    constructor
    · simp [h]
    · rw [List.filter_eq_nil_iff]
      intro a ha
      have h3 := (discover_cursor_mem home cu hcu a (by simpa using ha)).1
      simp [h3]

/-- Witness for the amended C8 at a concrete home with one cursor
location and no .claude. -/
theorem discover_no_claude_base_witness :
    (⟨"h", none, some [".cursor-server"],
        [⟨"cursor", [".cursor-server", "data", "User", "workspaceStorage", "w1"],
          some "w1...", 1, false, none⟩]⟩ : DiscoveryResult).claude_code_base = none ∧
    (⟨"h", none, some [".cursor-server"],
        [⟨"cursor", [".cursor-server", "data", "User", "workspaceStorage", "w1"],
          some "w1...", 1, false, none⟩]⟩ : DiscoveryResult).locations.filter
      (fun l => l.tool == "claude-code") = [] :=
  (discover_no_claude_base home8w "/home/u" "h" rfl).2
    ⟨"h", none, some [".cursor-server"],
      [⟨"cursor", [".cursor-server", "data", "User", "workspaceStorage", "w1"],
        some "w1...", 1, false, none⟩]⟩ rfl

/-- C3 as stated is false: with locations only under the macOS base,
cursor_base comes back none, not the macOS base. -/
theorem discover_all_macos_base_unset :
    discover_all home3 "/home/u" "h" =
      .ok ⟨"h", none, none,
        [⟨"cursor", ["Library", "Application Support", "Cursor", "User", "workspaceStorage", "abc"],
          some "abc...", 0, false, none⟩]⟩ := rfl

/-- If no location path mentions either recognized fragment, the base loop
assigns no base. -/
theorem cursorBaseLoop_none (home : FSNode) (hs : String) (locs : List HistoryLocation)
    (h : ∀ l ∈ locs, strContains (pathToString hs l.path) ".cursor-server" = false ∧
                     strContains (pathToString hs l.path) ".config/Cursor" = false) :
    cursorBaseLoop home hs locs = none := by
  induction locs with
  | nil => rfl
  | cons a rest ih =>
    unfold cursorBaseLoop
    obtain ⟨h1, h2⟩ := h a (List.mem_cons_self a rest)
    by_cases he : (home.lookup a.path).isSome = true
    · rw [if_pos he]
      simp [h1, h2]
    · rw [if_neg he]
      exact ih (fun l hl => h l (List.mem_cons_of_mem a hl))

/-- C3 amended: the base resolution recognizes only the .cursor-server and
.config/Cursor path fragments; when no returned location path contains
either fragment (in particular when editor-assistant locations exist only
under the macOS base), cursor_base stays unset. -/
theorem discover_all_cursor_base_fragments (home : FSNode) (hs hn : String)
    (r : DiscoveryResult)
    (hok : discover_all home hs hn = .ok r)
    (h : ∀ l ∈ r.locations,
        strContains (pathToString hs l.path) ".cursor-server" = false ∧
        strContains (pathToString hs l.path) ".config/Cursor" = false) :
    r.cursor_base = none := by
  unfold discover_all at hok
  split at hok
  · cases hok
  · rename_i cl hcl
    split at hok
    · cases hok
    · rename_i cu hcu
      injection hok with h2
      subst h2
      exact cursorBaseLoop_none home hs cu
        (fun l hl => h l (List.mem_append_right cl hl))

/-- Witness for the amended C3 at a concrete macOS-only home. -/
theorem discover_all_cursor_base_fragments_witness :
    (⟨"h", none, none,
      [⟨"cursor", ["Library", "Application Support", "Cursor", "User", "workspaceStorage", "wxyz"],
        some "wxyz...", 0, false, none⟩]⟩ : DiscoveryResult).cursor_base = none :=
  discover_all_cursor_base_fragments home3w "/home/u" "h"
    ⟨"h", none, none,
      [⟨"cursor", ["Library", "Application Support", "Cursor", "User", "workspaceStorage", "wxyz"],
        some "wxyz...", 0, false, none⟩]⟩
    rfl (by decide)

/-- C5 as stated is false: the unreadable index aborts the whole scan, so
the project location of home5 is not returned. -/
theorem unreadable_index_loses_other_locations :
    discover_claude_code home5 = .error () ∧ discover_all home5 "/home/u" "h" = .error () :=
  ⟨rfl, rfl⟩

/-- C5 amended: an index file on which open() raises is a hard failure
for the whole scan, not only for that entry: discover_claude_code and
discover_all raise and return no locations at all. -/
theorem unreadable_index_aborts (home : FSNode) (n : FSNode)
    (hidx : home.lookup [".claude", "history.jsonl"] = some n)
    (hbad : readLines n = .error ()) :
    discover_claude_code home = .error () ∧ ∀ hs hn, discover_all home hs hn = .error () := by
  have hbase : ∃ c, home.lookup [".claude"] = some c := by
    rw [show ([".claude", "history.jsonl"] : List String)
          = [".claude"] ++ ["history.jsonl"] from rfl] at hidx
    rw [FSNode.lookup_append] at hidx
    cases hc : home.lookup [".claude"] with
    | none => rw [hc] at hidx; cases hidx
    | some c => exact ⟨c, rfl⟩
  obtain ⟨c, hc⟩ := hbase
  have hidxL : indexLocs home = .error () := by
    simp [indexLocs, hidx, hbad]
  have hcl : discover_claude_code home = .error () := by
    simp [discover_claude_code, hc, hidxL]
  exact ⟨hcl, fun hs hn => by simp [discover_all, hcl]⟩

/-- Witness for the amended C5 at a concrete home with an unreadable
index file. -/
theorem unreadable_index_aborts_witness :
    discover_claude_code home5w = .error () ∧ discover_all home5w "/home/u" "h" = .error () :=
  ⟨(unreadable_index_aborts home5w (.file false 7) rfl rfl).1,
   (unreadable_index_aborts home5w (.file false 7) rfl rfl).2 "/home/u" "h"⟩

/-- projEmit fixes the emitted path to the project directory. -/
theorem projEmit_path (c : String × FSNode) (l : HistoryLocation)
    (h : projEmit c = some l) : l.path = [".claude", "projects", c.1] := by
  unfold projEmit at h
  split at h
  · split at h
    · injection h with h
      subst h
      rfl
    · cases h
  · cases h

/-- projEmit on a visible project directory with session files. -/
theorem projEmit_eq_some (c : String × FSNode) (hdir : c.2.isDir = true)
    (hvis : nameIsHidden c.1 = false) (hk : 0 < jsonlCount c.2) :
    projEmit c = some ⟨"claude-code", [".claude", "projects", c.1],
      some (decodeProjectName c.1), jsonlCount c.2, false, none⟩ := by
  unfold projEmit
  rw [hdir, hvis]
  simp [hk]

/-- projEmit emits nothing when a directory holds no session files. -/
theorem projEmit_eq_none_of_zero (c : String × FSNode) (hk : jsonlCount c.2 = 0) :
    projEmit c = none := by
  unfold projEmit
  split
  · simp [hk]
  · rfl

/-- The index path never equals a project path. -/
theorem idx_path_ne (name : String) :
    (([".claude", "history.jsonl"] : List String) == [".claude", "projects", name]) = false := rfl

/-- Two project paths agree exactly when the directory names agree. -/
theorem proj_path_beq (a name : String) :
    (([".claude", "projects", a] : List String) == [".claude", "projects", name])
      = (a == name) := by
  show List.beq _ _ = _
  simp [List.beq]

/-- Project locations of directories other than name never pass the path
filter. -/
theorem filter_projEmit_not_mem (tl : List (String × FSNode)) (name : String)
    (hname : name ∉ tl.map Prod.fst) :
    (tl.filterMap projEmit).filter (fun l => l.path == [".claude", "projects", name]) = [] := by
  induction tl with
  | nil => rfl
  | cons hd rest ih =>
    have hne : hd.1 ≠ name := by
      intro h
      exact hname (by simp [List.map_cons, h])
    have hrest : name ∉ rest.map Prod.fst := by
      intro h
      exact hname (by simp [List.map_cons, h])
    cases he : projEmit hd with
    | none =>
      rw [List.filterMap_cons_none he]
      exact ih hrest
    | some loc =>
      rw [List.filterMap_cons_some he]
      rw [List.filter_cons_of_neg]
      · exact ih hrest
      · rw [projEmit_path hd loc he, proj_path_beq]
        simp [hne]

/-- The path filter over the projects scan, for a visible directory listed
once: exactly one matching location when it holds session files, none
otherwise. -/
theorem filter_projEmit_mem (cs : List (String × FSNode)) (name : String) (node : FSNode)
    (hnd : (cs.map Prod.fst).Nodup)
    (hmem : (name, node) ∈ cs) (hdir : node.isDir = true)
    (hvis : nameIsHidden name = false) :
    (cs.filterMap projEmit).filter (fun l => l.path == [".claude", "projects", name]) =
      if 0 < jsonlCount node then
        [⟨"claude-code", [".claude", "projects", name], some (decodeProjectName name),
          jsonlCount node, false, none⟩]
      else [] := by
  induction cs with
  | nil => cases hmem
  | cons hd rest ih =>
    rw [List.map_cons, List.nodup_cons] at hnd
    obtain ⟨hh, hr⟩ := hnd
    rcases List.mem_cons.mp hmem with heq | hmem2
    · have hhd : hd = (name, node) := heq.symm
      subst hhd
      by_cases hk : 0 < jsonlCount node
      · rw [List.filterMap_cons_some (projEmit_eq_some (name, node) hdir hvis hk)]
        rw [if_pos hk]
        rw [List.filter_cons_of_pos (by rw [proj_path_beq]; simp)]
        rw [filter_projEmit_not_mem rest name hh]
      · have hk0 : jsonlCount node = 0 := Nat.eq_zero_of_not_pos hk
        rw [List.filterMap_cons_none (projEmit_eq_none_of_zero (name, node) hk0)]
        rw [if_neg hk]
        exact filter_projEmit_not_mem rest name hh
    · have hne : hd.1 ≠ name := by
        intro h
        exact hh (h ▸ List.mem_map_of_mem Prod.fst hmem2)
      cases he : projEmit hd with
      | none =>
        rw [List.filterMap_cons_none he]
        exact ih hr hmem2
      | some loc =>
        rw [List.filterMap_cons_some he]
        rw [List.filter_cons_of_neg]
        · exact ih hr hmem2
        · rw [projEmit_path hd loc he, proj_path_beq]
          simp [hne]

/-- The index scan contributes nothing to a project path filter. -/
theorem indexLocs_filter_proj (home : FSNode) (idx : List HistoryLocation) (name : String)
    (hok : indexLocs home = .ok idx) :
    idx.filter (fun l => l.path == [".claude", "projects", name]) = [] := by
  unfold indexLocs at hok
  split at hok
  · injection hok with h
    subst h
    rfl
  · split at hok
    · cases hok
    · injection hok with h
      subst h
      rw [List.filter_cons_of_neg]
      · rfl
      · rw [idx_path_ne]
        simp

/-- C6: every non-hidden subdirectory of .claude/projects listed once
gives exactly one CLI-assistant location when it holds at least one
.jsonl session file - with label the directory name decoded (encoding
character to path separator, one leading separator stripped) and
unit_count the non-recursive .jsonl count - and no location at all when
it holds none. -/
theorem claude_project_location_unique (home : FSNode) (cs : List (String × FSNode))
    (locs : List HistoryLocation) (name : String) (node : FSNode)
    (hproj : home.lookup [".claude", "projects"] = some (.dir cs))
    (hnd : (cs.map Prod.fst).Nodup)
    (hmem : (name, node) ∈ cs)
    (hdir : node.isDir = true)
    (hvis : nameIsHidden name = false)
    (hok : discover_claude_code home = .ok locs) :
    (0 < jsonlCount node →
      locs.filter (fun l => l.path == [".claude", "projects", name]) =
        [⟨"claude-code", [".claude", "projects", name], some (decodeProjectName name),
          jsonlCount node, false, none⟩]) ∧
    (jsonlCount node = 0 →
      locs.filter (fun l => l.path == [".claude", "projects", name]) = []) := by
  have hpl : projectLocs home = .ok (cs.filterMap projEmit) := by
    unfold projectLocs
    rw [hproj]
  unfold discover_claude_code at hok
  split at hok
  · rename_i hnone
    rw [show ([".claude", "projects"] : List String) = [".claude"] ++ ["projects"] from rfl,
        FSNode.lookup_append, hnone] at hproj
    cases hproj
  · split at hok
    · cases hok
    · rename_i idx hidx
      split at hok
      · rename_i e herr
        rw [hpl] at herr
        cases herr
      · rename_i pls hplsEq
        rw [hpl] at hplsEq
        injection hplsEq with hplsEq
        subst hplsEq
        injection hok with hok
        subst hok
        constructor
        · intro hk
          rw [List.filter_append, indexLocs_filter_proj home idx name hidx,
              filter_projEmit_mem cs name node hnd hmem hdir hvis, if_pos hk,
              List.nil_append]
        · intro hk0
          rw [List.filter_append, indexLocs_filter_proj home idx name hidx,
              filter_projEmit_mem cs name node hnd hmem hdir hvis,
              if_neg (by omega), List.nil_append]

/-- Witness for C6 at a concrete home: directory -root-proj with three
session files decodes to label root/proj and count 3. -/
theorem claude_project_location_unique_witness :
    ([⟨"claude-code", [".claude", "projects", "-root-proj"], some "root/proj", 3, false, none⟩]
        : List HistoryLocation).filter
        (fun l => l.path == [".claude", "projects", "-root-proj"]) =
      [⟨"claude-code", [".claude", "projects", "-root-proj"], some "root/proj", 3, false, none⟩] :=
  (claude_project_location_unique home6
    [("-root-proj", .dir [("a.jsonl", .file true 0), ("b.jsonl", .file true 0),
                          ("c.jsonl", .file true 0)])]
    [⟨"claude-code", [".claude", "projects", "-root-proj"], some "root/proj", 3, false, none⟩]
    "-root-proj"
    (.dir [("a.jsonl", .file true 0), ("b.jsonl", .file true 0), ("c.jsonl", .file true 0)])
    rfl (by decide) (List.Mem.head _) rfl rfl rfl).1 (by decide)

/-- C4: when none of the fixed remote candidate paths of either tool
exists on the host, pull_from_remote returns success false and creates no
local directory for that host at all (the state is untouched). -/
theorem pull_nothing_found (re : String → Bool) (rsyncOk : String → Bool → Bool)
    (claude_code cursor dry_run : Bool) (st : PullState)
    (h1 : re "~/.claude" = false) (h2 : re "~/.cursor-server" = false)
    (h3 : re "~/.config/Cursor" = false) (h4 : re "~/.cursor" = false) :
    pull_from_remote re rsyncOk claude_code cursor dry_run st = (st, false) := by
  have hd : discover_remote_histories re = (none, none) := by
    simp [discover_remote_histories, claude_paths, cursor_paths, List.find?, h1, h2, h3, h4]
  unfold pull_from_remote
  rw [hd]
  rfl

/-- Witness for C4 at a host with no candidate paths. -/
theorem pull_nothing_found_witness :
    pull_from_remote (fun _ => false) (fun _ _ => true) true true false ⟨false, false, false⟩
      = (⟨false, false, false⟩, false) :=
  pull_nothing_found (fun _ => false) (fun _ _ => true) true true false ⟨false, false, false⟩
    rfl rfl rfl rfl

/-- C1 counterexample: claude-code is requested but absent on a host whose
cursor store is found and mirrors cleanly; the claim demands success
false, but pull_from_remote returns success true. -/
theorem pull_not_found_tool_still_succeeds :
    discover_remote_histories (fun s => s == "~/.cursor-server")
      = (none, some "~/.cursor-server") ∧
    (pull_from_remote (fun s => s == "~/.cursor-server") (fun _ _ => true) true true false
        ⟨false, false, false⟩).2 = true :=
  ⟨rfl, rfl⟩

/-- C1 amended: when some tool is found, a requested tool that is absent
on the remote is only reported, never counted as failure - overall
success is false exactly when the mirror step of some requested and found
tool fails - and each tool is attempted (its local directory is created)
independently of the other tool's outcome. -/
theorem pull_success_semantics (re : String → Bool) (rsyncOk : String → Bool → Bool)
    (claude_code cursor dry_run : Bool) (st : PullState) (oc ou : Option String)
    (hd : discover_remote_histories re = (oc, ou))
    (hf : (oc.isSome || ou.isSome) = true) :
    (pull_from_remote re rsyncOk claude_code cursor dry_run st).2
      = ((!(claude_code && oc.isSome) || mirrorOkFlag rsyncOk dry_run oc)
          && (!(cursor && ou.isSome) || mirrorOkFlag rsyncOk dry_run ou))
    ∧ (pull_from_remote re rsyncOk claude_code cursor dry_run st).1.claudeDirExists
        = (st.claudeDirExists || (claude_code && oc.isSome))
    ∧ (pull_from_remote re rsyncOk claude_code cursor dry_run st).1.cursorDirExists
        = (st.cursorDirExists || (cursor && ou.isSome)) := by
  unfold pull_from_remote
  rw [hd]
  cases oc <;> cases ou <;> cases claude_code <;> cases cursor <;>
    simp_all [mirrorOkFlag]

/-- Witness for the amended C1: cursor found and requested, claude
requested but absent, mirror succeeding. -/
theorem pull_success_semantics_witness :
    (pull_from_remote (fun s => s == "~/.config/Cursor") (fun _ _ => true) true true false
        ⟨false, false, false⟩).2
      = ((!(true && (none : Option String).isSome)
            || mirrorOkFlag (fun _ _ => true) false none)
          && (!(true && (some "~/.config/Cursor" : Option String).isSome)
            || mirrorOkFlag (fun _ _ => true) false (some "~/.config/Cursor")))
    ∧ (pull_from_remote (fun s => s == "~/.config/Cursor") (fun _ _ => true) true true false
        ⟨false, false, false⟩).1.claudeDirExists
      = ((⟨false, false, false⟩ : PullState).claudeDirExists
          || (true && (none : Option String).isSome))
    ∧ (pull_from_remote (fun s => s == "~/.config/Cursor") (fun _ _ => true) true true false
        ⟨false, false, false⟩).1.cursorDirExists
      = ((⟨false, false, false⟩ : PullState).cursorDirExists
          || (true && (some "~/.config/Cursor" : Option String).isSome)) :=
  pull_success_semantics (fun s => s == "~/.config/Cursor") (fun _ _ => true) true true false
    ⟨false, false, false⟩ none (some "~/.config/Cursor") rfl rfl

/-- C2 counterexample: with dry_run true and the claude store found, the
pull still mutates the local filesystem, creating the host directory and
the claude-code directory under it. -/
theorem pull_dry_run_creates_dirs :
    (pull_from_remote (fun s => s == "~/.claude") (fun _ _ => true) true true true
        ⟨false, false, false⟩).1 = ⟨true, true, false⟩ := rfl

/-- C2 amended: a dry run performs discovery and suppresses only the
mirror step; the local directories it creates are exactly those a real
run creates: the resulting local state is independent of the dry-run flag
and of every mirror outcome. -/
theorem pull_state_ignores_dry_run (re : String → Bool) (ok1 ok2 : String → Bool → Bool)
    (claude_code cursor d1 d2 : Bool) (st : PullState) :
    (pull_from_remote re ok1 claude_code cursor d1 st).1
      = (pull_from_remote re ok2 claude_code cursor d2 st).1 := by
  unfold pull_from_remote
  cases hd : discover_remote_histories re with
  | mk oc ou => cases oc <;> cases ou <;> cases claude_code <;> cases cursor <;> simp

/-- Without force a tool step never raises, and running it again on its
own result changes nothing, creates nothing and reports a skip exactly
when the base is present. -/
theorem consolidateTool_nonforce_idem (fs : List String → Bool)
    (b : Option (List String)) (s : SlotEntry) :
    consolidateTool fs false b ((consolidateTool fs false b s).1)
      = ((consolidateTool fs false b s).1, some ⟨b.isSome, false⟩)
    ∧ (consolidateTool fs false b s).2.isSome = true := by
  cases b with
  | none => simp [consolidateTool]
  | some bb => cases s <;> simp [consolidateTool, entryExists, entryIsSymlink]

/-- C7: consolidate_local without force run twice is idempotent: the
second run leaves the state (all entries and their targets) exactly as
the first run left it, creates no links, and reports each tool whose base
is present as skipped. -/
theorem consolidate_local_idem (fs : List String → Bool)
    (cb ub : Option (List String)) (st : ConsState) :
    (consolidate_local fs false cb ub (consolidate_local fs false cb ub st).1).1
      = (consolidate_local fs false cb ub st).1
    ∧ (consolidate_local fs false cb ub (consolidate_local fs false cb ub st).1).2
      = some ⟨⟨cb.isSome, false⟩, ⟨ub.isSome, false⟩⟩ := by
  obtain ⟨hd0, cS, uS⟩ := st
  rcases hC : consolidateTool fs false cb cS with ⟨s, o⟩
  obtain ⟨hc2, hcS⟩ := consolidateTool_nonforce_idem fs cb cS
  rw [hC] at hc2 hcS
  cases o with
  | none => simp at hcS
  | some rc =>
    rcases hU : consolidateTool fs false ub uS with ⟨s2, o2⟩
    obtain ⟨hu2, huS⟩ := consolidateTool_nonforce_idem fs ub uS
    rw [hU] at hu2 huS
    cases o2 with
    | none => simp at huS
    | some ru =>
      simp only [consolidate_local]
      rw [hC, hU]
      simp only []
      rw [hc2, hu2]
      exact ⟨rfl, rfl⟩

/-- Witness is not required for C7 (no propositional hypothesis), but the
idempotence is exercised at a concrete state. -/
example :
    (consolidate_local (fun _ => true) false (some [".claude"]) (some [".cursor-server"])
        (consolidate_local (fun _ => true) false (some [".claude"]) (some [".cursor-server"])
          ⟨false, .absent, .realFile⟩).1)
      = (⟨true, .symlinkTo [".claude"], .realFile⟩,
          some ⟨⟨true, false⟩, ⟨true, false⟩⟩) := rfl

/-- A tool step never replaces a real directory occupying the target. -/
theorem consolidateTool_fst_dir (fs : List String → Bool) (force : Bool)
    (b : Option (List String)) :
    (consolidateTool fs force b .realDir).1 = .realDir := by
  cases b <;> cases force <;> simp [consolidateTool, entryExists, entryIsSymlink]

/-- C10: with force, a target entry occupied by a real (non-symlink)
directory makes the unlink step raise, aborting the whole consolidation
call: no report is produced, the directory is not removed and no link
replaces it. -/
theorem consolidate_local_force_dir_aborts (fs : List String → Bool)
    (cb ub : Option (List String)) (st : ConsState)
    (h : (cb.isSome = true ∧ st.claudeSlot = .realDir)
       ∨ (ub.isSome = true ∧ st.cursorSlot = .realDir)) :
    (consolidate_local fs true cb ub st).2 = none
    ∧ (st.claudeSlot = .realDir →
        (consolidate_local fs true cb ub st).1.claudeSlot = .realDir)
    ∧ (st.cursorSlot = .realDir →
        (consolidate_local fs true cb ub st).1.cursorSlot = .realDir) := by
  obtain ⟨hd0, cS, uS⟩ := st
  rcases h with ⟨hb, hs⟩ | ⟨hb, hs⟩
  · subst hs
    rcases cb with _ | bb
    · simp at hb
    · rcases uS with _ | t | _ | _ <;>
        simp [consolidate_local, consolidateTool, entryExists, entryIsSymlink]
  · subst hs
    rcases ub with _ | bb
    · simp at hb
    · rcases cb with _ | cbb <;> rcases cS with _ | t | _ | _ <;>
        simp [consolidate_local, consolidateTool, entryExists, entryIsSymlink]
/-- Witness for C10: forcing over a real directory in the claude-code
slot aborts and preserves it. -/
theorem consolidate_local_force_dir_aborts_witness :
    (consolidate_local (fun _ => false) true (some [".claude"]) none
        ⟨false, .realDir, .absent⟩).2 = none
    ∧ ((⟨false, .realDir, .absent⟩ : ConsState).claudeSlot = .realDir →
        (consolidate_local (fun _ => false) true (some [".claude"]) none
          ⟨false, .realDir, .absent⟩).1.claudeSlot = .realDir)
    ∧ ((⟨false, .realDir, .absent⟩ : ConsState).cursorSlot = .realDir →
        (consolidate_local (fun _ => false) true (some [".claude"]) none
          ⟨false, .realDir, .absent⟩).1.cursorSlot = .realDir) :=
  consolidate_local_force_dir_aborts (fun _ => false) (some [".claude"]) none
    ⟨false, .realDir, .absent⟩ (Or.inl ⟨rfl, rfl⟩)
